import Mathlib

/-!
Verification of `dockercompose.py` (czerwe/ansible-dockercompose).

The module has three pieces of logic:
  - the dependency-accumulation loop of `main` (lines 132-138) plus the
    assembly of the service argument (lines 151 / 157),
  - the pre-execution checks of `main` (lines 104-138), and
  - the output classifier `eval_change` (lines 185-229) with its helper
    `service_state_allign` (lines 233-252).

Python strings are embedded as Lean `String`, with the Python string methods
implemented structurally over the character list (`String.data`), so that every
definition evaluates by kernel reduction.  A Python expression that can raise
(`split()[1]`, `.get` on a list) is embedded with `Option`, `none` standing
for the raised exception.
-/

/-- Embeds Python `s.startswith(pre)`. -/
def pyStartswith (s pre : String) : Bool :=
  pre.data.isPrefixOf s.data

/-- Embeds Python `s.endswith(suf)`. -/
def pyEndswith (s suf : String) : Bool :=
  suf.data.isSuffixOf s.data

/-- Embeds Python `s.strip()`: remove leading and trailing whitespace. -/
def pyStrip (s : String) : String :=
  String.mk (((s.data.dropWhile Char.isWhitespace).reverse.dropWhile Char.isWhitespace).reverse)

/-- Embeds Python `needle in hay` (substring containment) on character lists. -/
def listContains (needle : List Char) : List Char → Bool
  | [] => needle.isEmpty
  | c :: rest => needle.isPrefixOf (c :: rest) || listContains needle rest

/-- Embeds Python `needle in hay` for strings. -/
def pyIn (needle hay : String) : Bool :=
  listContains needle.data hay.data

/-- Helper for `pySplitWs`: accumulate the current (reversed) token while
scanning the characters. -/
def splitWsAux : List Char → List Char → List String
  | acc, [] => if acc.isEmpty then [] else [String.mk acc.reverse]
  | acc, c :: cs =>
    if c.isWhitespace then
      if acc.isEmpty then splitWsAux [] cs
      else String.mk acc.reverse :: splitWsAux [] cs
    else splitWsAux (c :: acc) cs

/-- Embeds Python `s.split()` (split on whitespace runs, dropping empty
tokens). -/
def pySplitWs (s : String) : List String :=
  splitWsAux [] s.data

/-- Embeds Python `s.split()[1]`: `none` models the `IndexError` raised when
the line has fewer than two whitespace-delimited tokens. -/
def secondToken (s : String) : Option String :=
  (pySplitWs s).get? 1

/-- Embeds the list comprehension `[ps.split()[1] for ps in lines]`:
`none` models the `IndexError` raised at the first line with fewer than two
tokens. -/
def mapSecondTokens : List String → Option (List String)
  | [] => some []
  | ln :: rest =>
    match secondToken ln with
    | none => none
    | some t => (mapSecondTokens rest).map (fun ts => t :: ts)

/-- Embeds the Python dict assignment `d[k] = v` on an insertion-ordered
association list (CPython dicts keep the first-insertion position and update
the value in place). -/
def dictInsert : List (String × String) → String → String → List (String × String)
  | [], k, v => [(k, v)]
  | p :: rest, k, v => if p.1 = k then (k, v) :: rest else p :: dictInsert rest k v

/-- Embeds the Python dict lookup `d[k]` / `k in d` as an optional value:
the value stored at the first (and, for dicts, only) entry with this key. -/
def dictLookup : List (String × String) → String → Option String
  | [], _ => none
  | p :: rest, k => if p.1 = k then some p.2 else dictLookup rest k

/-- Line 235 of the source: the lines that start with the given prefix string
and whose stripped form does not end with `...` (completed, not in-progress). -/
def pausing_lines_of (lines : List String) (pre : String) : List String :=
  lines.filter (fun ln => pyStartswith ln pre && !(pyEndswith (pyStrip ln) "..."))

/-- Line 236 of the source: the lines that start with `ERROR`. -/
def error_lines_of (lines : List String) : List String :=
  lines.filter (fun ln => pyStartswith ln "ERROR")

/-- Line 238 of the source: second token of each completed line ending in
`error`; `none` when `split()[1]` raises. -/
def error_services_of (lines : List String) (pre : String) : Option (List String) :=
  mapSecondTokens ((pausing_lines_of lines pre).filter (fun ps => pyEndswith ps "error"))

/-- Line 239 of the source: second token of each completed line ending in
`done`; `none` when `split()[1]` raises. -/
def done_services_of (lines : List String) (pre : String) : Option (List String) :=
  mapSecondTokens ((pausing_lines_of lines pre).filter (fun ps => pyEndswith ps "done"))

/-- The inner loop of lines 243-246 for one error service: every `ERROR` line
containing the service name overwrites its dict entry, so the last containing
line wins. -/
def error_align_one (error_lines : List String) (st : List (String × String))
    (es : String) : List (String × String) :=
  error_lines.foldl (fun st el => if pyIn es el then dictInsert st es el else st) st

/-- Embeds `service_state_allign(lines, prefix)` (source lines 233-252).
Returns `none` when one of the two `split()[1]` comprehensions raises
`IndexError`. -/
def service_state_allign (lines : List String) (pre : String) :
    Option (List (String × String)) :=
  match error_services_of lines pre with
  | none => none
  | some error_services =>
    match done_services_of lines pre with
    | none => none
    | some done_services =>
      let st1 := error_services.foldl (error_align_one (error_lines_of lines)) []
      some (done_services.foldl (fun st ds => dictInsert st ds "done") st1)

/-- Embeds `eval_change(action, stderr_lines, stdout_lines)` (source lines
185-229), the sequence of `if action == ...` blocks mutating `changeVal` and
`failVal`.  Returns `none` when the `pause`/`unpause` branch raises inside
`service_state_allign`; otherwise `some (changeVal, failVal)`. -/
def eval_change (action : String) (stderr_lines stdout_lines : List String) :
    Option (Bool × Bool) :=
  let changeVal := false
  let failVal := false
  let changeVal :=
    if action = "up" then
      (stderr_lines.filter
          (fun ln => pyStartswith ln "Starting" || pyStartswith ln "Creating")).foldl
        (fun cv valid_line => if !(pyEndswith valid_line "up-to-date") then true else cv)
        changeVal
    else changeVal
  let changeVal :=
    if action = "pull" then
      stdout_lines.foldl
        (fun cv stdout_line =>
          if pyIn "Status: Downloaded newer image" stdout_line then true else cv)
        changeVal
    else changeVal
  let failVal :=
    if action = "build" then
      stderr_lines.foldl
        (fun fv stderr_line => if pyIn "failed to build" stderr_line then true else fv)
        failVal
    else failVal
  let changeVal :=
    if action = "stop" ∧ 0 < stderr_lines.length then true else changeVal
  let changeVal :=
    if action = "create" ∧ 0 < stderr_lines.length then true else changeVal
  let changeVal := if action = "start" then false else changeVal
  let pauseStep :=
    if action = "pause" then
      (service_state_allign stderr_lines "Pausing").map
        (fun service_state =>
          service_state.foldl
            (fun cv p => if !(pyEndswith p.2 "is already paused") then true else cv)
            changeVal)
    else some changeVal
  pauseStep.bind (fun changeVal =>
    (if action = "unpause" then
      (service_state_allign stderr_lines "Unpausing").map
        (fun service_state =>
          service_state.foldl
            (fun cv p => if !(pyEndswith p.2 "is not paused") then true else cv)
            changeVal)
    else some changeVal).map (fun changeVal => (changeVal, failVal)))

/-- The value of `info.get('services', [])` (source line 134): either the
mapping stored under the `services` key of the compose document, or the `[]`
list fallback when the key is absent.  Each service definition is represented
by its `depends_on` list, since `all_services.get(service, {})` followed by
`.get('depends_on', [])` reads nothing else of it. -/
inductive ServicesValue where
  | dict (m : List (String × List String))
  | emptyListFallback

/-- Embeds `all_services.get(service, {}).get('depends_on', [])` (source
lines 137-138) for a dict-valued `all_services`: the `depends_on` list of the
service, `[]` when the service or the key is absent. -/
def depends_on_of (all_services : List (String × List String)) (service : String) :
    List String :=
  match all_services.find? (fun p => p.1 == service) with
  | some p => p.2
  | none => []

/-- One pass of the dependency-accumulation loop (source lines 136-138): for
each requested service, union its `depends_on` list into the accumulated set.
The accumulator `list(set(depedency_services + ...))` is embedded as a
`Finset`. -/
def expansion_pass (all_services : List (String × List String))
    (requested : List String) (acc : Finset String) : Finset String :=
  requested.foldl (fun d s => d ∪ (depends_on_of all_services s).toFinset) acc

/-- Embeds the whole dependency block of `main` (source lines 132-138),
producing the final value of `depedency_services` as a set.  `none` models the
`AttributeError` raised when the loop body calls `.get` on the `[]` fallback
(which happens as soon as the loop runs at least once). -/
def depedency_services (ignoredependencys : Bool) (services_value : ServicesValue)
    (services : List String) : Option (Finset String) :=
  if ignoredependencys then some ∅
  else
    match services_value with
    | ServicesValue.dict m => some (expansion_pass m services ∅)
    | ServicesValue.emptyListFallback => if services.isEmpty then some ∅ else none

/-- Embeds `set(depedency_services + p['services'])`, the service set joined
into the command line at source lines 151 and 157. -/
def effective_service_set (deps : Finset String) (services : List String) :
    Finset String :=
  deps ∪ services.toFinset

/-- The module parameters of `main` (source lines 86-99). -/
structure ModuleParams where
  location : String
  services : List String
  command : String
  ignoredependencys : Bool
  removevolumes : Bool

/-- The facts about the host that the pre-execution checks of `main` consult:
whether the docker-compose binary is found (lines 104-112), whether the
location exists and is a file (line 114), whether `yaml.load` succeeds
(lines 122-126), and the value of `info.get('services', [])` (line 134). -/
structure PreflightEnv where
  compose_cmd_found : Bool
  location_ok : Bool
  yaml_ok : Bool
  services_value : ServicesValue

/-- Embeds everything `main` does before its first call to
`module.run_command` (source lines 104-138), in source order: binary lookup,
location check, the down-plus-services check (line 118), YAML decoding, and
the dependency loop.  `some msg` means the run aborts with `fail_json(msg)`
(or, for the last case, with an uncaught `AttributeError`) before any external
process is invoked; `none` means execution reaches the command-assembly
phase. -/
def main_preflight (env : PreflightEnv) (p : ModuleParams) : Option String :=
  if env.compose_cmd_found = false then some "docker-compose binary not found"
  else if env.location_ok = false then
    some "Location does not exists. Enter full path and compose filename."
  else if p.command = "down" ∧ 1 ≤ p.services.length then
    some "You cannot specify the command as down and a number of services"
  else if env.yaml_ok = false then some "YAML cannot be decoded."
  else
    match depedency_services p.ignoredependencys env.services_value p.services with
    | none => some "AttributeError: list object has no attribute get"
    | some _ => none

section Helpers

/-- A fold that ORs a predicate into a boolean accumulator computes `any`. -/
lemma foldl_or_any {α : Type} (p : α → Bool) (l : List α) (b : Bool) :
    l.foldl (fun acc x => p x || acc) b = (b || l.any p) := by
  induction l generalizing b with
  | nil => simp
  | cons x t ih =>
    simp only [List.foldl_cons, List.any_cons, ih]
    cases p x <;> cases b <;> simp

/-- Closed form of the classifier for action `up`. -/
lemma eval_change_up_eq (se so : List String) :
    eval_change "up" se so =
      some (se.any (fun ln =>
        (pyStartswith ln "Starting" || pyStartswith ln "Creating") &&
          !(pyEndswith ln "up-to-date")), false) := by
  simp [eval_change, foldl_or_any, List.any_filter]

/-- Closed form of the classifier for action `build`. -/
lemma eval_change_build_eq (se so : List String) :
    eval_change "build" se so =
      some (false, se.any (fun ln => pyIn "failed to build" ln)) := by
  simp [eval_change, foldl_or_any]

/-- Closed form of the classifier for action `pause`, given that the state
alignment succeeded. -/
lemma eval_change_pause_eq (se so : List String) (m : List (String × String))
    (h : service_state_allign se "Pausing" = some m) :
    eval_change "pause" se so =
      some (m.any (fun p => !(pyEndswith p.2 "is already paused")), false) := by
  simp [eval_change, h, foldl_or_any]

/-- The second component of any value returned by the classifier is the
`build` failure flag. -/
lemma eval_change_snd (action : String) (se so : List String) (r : Bool × Bool)
    (h : eval_change action se so = some r) :
    r.2 = (if action = "build" then se.any (fun ln => pyIn "failed to build" ln)
           else false) := by
  simp only [eval_change, Option.bind_eq_some, Option.map_eq_some'] at h
  obtain ⟨a, ha, b, hb, hr⟩ := h
  subst hr
  by_cases hbuild : action = "build" <;> simp [hbuild, foldl_or_any]

/-- The state returned by the latest-match fold, decomposed over an arbitrary
initial accumulator. -/
def lastContaining (needle : String) (lines : List String) : Option String :=
  lines.foldl (fun acc el => if pyIn needle el then some el else acc) none

lemma foldl_lastContaining (needle : String) (lines : List String)
    (acc : Option String) :
    lines.foldl (fun acc el => if pyIn needle el then some el else acc) acc =
      (lastContaining needle lines).or acc := by
  induction lines generalizing acc with
  | nil => simp [lastContaining]
  | cons e t ih =>
    simp only [lastContaining, List.foldl_cons] at *
    rw [ih, ih (if pyIn needle e then some e else none)]
    by_cases h : pyIn needle e = true <;> simp [h, Option.or_assoc]

lemma some_or' {α : Type} (a : α) (o : Option α) : (some a).or o = some a := rfl

lemma lastContaining_cons (needle e : String) (t : List String) :
    lastContaining needle (e :: t) =
      (lastContaining needle t).or (if pyIn needle e = true then some e else none) := by
  simp only [lastContaining, List.foldl_cons]
  exact foldl_lastContaining needle t _

lemma lastContaining_eq_getLast? (needle : String) (lines : List String) :
    lastContaining needle lines =
      (lines.filter (fun el => pyIn needle el)).getLast? := by
  induction lines with
  | nil => simp [lastContaining]
  | cons e t ih =>
    rw [lastContaining_cons, ih, List.filter_cons]
    by_cases h : pyIn needle e = true
    · simp only [h, reduceIte]
      cases hlt : (t.filter (fun el => pyIn needle el)).getLast? with
      | none => simp [hlt, List.getLast?_cons, Option.or]
      | some x => simp [hlt, List.getLast?_cons, Option.or]
    · simp [h]

lemma dictLookup_dictInsert (d : List (String × String)) (k v k' : String) :
    dictLookup (dictInsert d k v) k' = if k' = k then some v else dictLookup d k' := by
  induction d with
  | nil =>
    by_cases h : k' = k
    · simp [dictInsert, dictLookup, h]
    · simp [dictInsert, dictLookup, h, Ne.symm h]
  | cons p t ih =>
    by_cases hpk : p.1 = k
    · by_cases hk : k' = k
      · simp [dictInsert, dictLookup, hpk, hk]
      · have hpk' : ¬(p.1 = k') := fun e => hk (e.symm.trans hpk)
        simp [dictInsert, dictLookup, hpk, hk, Ne.symm hk, hpk']
    · by_cases hph : p.1 = k'
      · have hkk : ¬(k' = k) := fun e => hpk (hph.trans e)
        simp [dictInsert, dictLookup, hpk, hph, hkk]
      · simp [dictInsert, dictLookup, hpk, hph, ih]

lemma dictLookup_eq_none_iff (d : List (String × String)) (s : String) :
    dictLookup d s = none ↔ ∀ p ∈ d, p.1 ≠ s := by
  induction d with
  | nil => simp [dictLookup]
  | cons p t ih =>
    by_cases h : p.1 = s <;> simp [dictLookup, h, ih]

lemma dictLookup_error_align_one_self (els : List String)
    (st : List (String × String)) (es : String) :
    dictLookup (error_align_one els st es) es =
      (lastContaining es els).or (dictLookup st es) := by
  induction els generalizing st with
  | nil => simp [error_align_one, lastContaining]
  | cons el t ih =>
    rw [show error_align_one (el :: t) st es =
          error_align_one t (if pyIn es el = true then dictInsert st es el else st) es
        from rfl,
      ih, lastContaining_cons]
    by_cases h : pyIn es el = true
    · simp [h, dictLookup_dictInsert, Option.or_assoc, some_or']
    · simp [h]

lemma dictLookup_error_align_one_ne (els : List String)
    (st : List (String × String)) (es s : String) (h : s ≠ es) :
    dictLookup (error_align_one els st es) s = dictLookup st s := by
  induction els generalizing st with
  | nil => rfl
  | cons el t ih =>
    rw [show error_align_one (el :: t) st es =
          error_align_one t (if pyIn es el = true then dictInsert st es el else st) es
        from rfl,
      ih]
    by_cases hp : pyIn es el = true <;> simp [hp, dictLookup_dictInsert, h]

lemma dictLookup_error_align (els ess : List String)
    (st : List (String × String)) (s : String) :
    dictLookup (ess.foldl (error_align_one els) st) s =
      if s ∈ ess then (lastContaining s els).or (dictLookup st s)
      else dictLookup st s := by
  induction ess generalizing st with
  | nil => simp
  | cons e t ih =>
    simp only [List.foldl_cons]
    rw [ih]
    by_cases he : s = e
    · subst he
      by_cases ht : s ∈ t
      · simp only [ht, reduceIte, List.mem_cons, true_or, dictLookup_error_align_one_self]
        rw [← Option.or_assoc, Option.or_self]
      · simp [ht, dictLookup_error_align_one_self]
    · have hmem : (s ∈ e :: t) ↔ s ∈ t := by simp [List.mem_cons, he]
      rw [dictLookup_error_align_one_ne els st e s he]
      by_cases ht : s ∈ t <;> simp [ht, hmem]

lemma dictLookup_done_loop_ne (ds : List String)
    (st : List (String × String)) (s : String) :
    s ∉ ds →
      dictLookup (ds.foldl (fun st d => dictInsert st d "done") st) s =
        dictLookup st s := by
  induction ds generalizing st with
  | nil => intro _; rfl
  | cons d t ih =>
    intro h
    simp only [List.foldl_cons]
    have hd : s ≠ d := fun e => h (e ▸ List.mem_cons_self d t)
    rw [ih _ (fun hm => h (List.mem_cons_of_mem _ hm)), dictLookup_dictInsert]
    simp [hd]

/-- The well-formedness condition under which the `split()[1]` comprehensions
of `service_state_allign` cannot raise: every line that starts with the given
prefix string, is completed (stripped form not ending in `...`) and ends in
`error` or `done` has at least two whitespace-delimited tokens. -/
def splitOk (lines : List String) (pre : String) : Prop :=
  ∀ ln ∈ lines, pyStartswith ln pre = true →
    pyEndswith (pyStrip ln) "..." = false →
    (pyEndswith ln "error" = true ∨ pyEndswith ln "done" = true) →
    2 ≤ (pySplitWs ln).length

instance (lines : List String) (pre : String) : Decidable (splitOk lines pre) := by
  unfold splitOk
  infer_instance

lemma mapSecondTokens_some (l : List String)
    (h : ∀ x ∈ l, 2 ≤ (pySplitWs x).length) :
    ∃ ts, mapSecondTokens l = some ts := by
  induction l with
  | nil => exact ⟨[], rfl⟩
  | cons x t ih =>
    obtain ⟨ts, hts⟩ := ih (fun y hy => h y (List.mem_cons_of_mem _ hy))
    have hx : 2 ≤ (pySplitWs x).length := h x (List.mem_cons_self _ _)
    obtain ⟨tok, htok⟩ : ∃ tok, secondToken x = some tok := by
      unfold secondToken
      cases hg : (pySplitWs x).get? 1 with
      | none =>
        exfalso
        have := List.get?_eq_none.mp hg
        omega
      | some tok => exact ⟨tok, rfl⟩
    exact ⟨tok :: ts, by simp [mapSecondTokens, htok, hts]⟩

/-- Unfolds `service_state_allign` when both comprehensions succeed. -/
lemma service_state_allign_eq (lines : List String) (pre : String)
    (es ds : List String)
    (hes : error_services_of lines pre = some es)
    (hds : done_services_of lines pre = some ds) :
    service_state_allign lines pre =
      some (ds.foldl (fun st d => dictInsert st d "done")
        (es.foldl (error_align_one (error_lines_of lines)) [])) := by
  simp [service_state_allign, hes, hds]

lemma service_state_allign_some (lines : List String) (pre : String)
    (h : splitOk lines pre) :
    ∃ m, service_state_allign lines pre = some m := by
  have hsplit : ∀ suf, suf = "error" ∨ suf = "done" →
      ∀ x ∈ (pausing_lines_of lines pre).filter (fun ps => pyEndswith ps suf),
        2 ≤ (pySplitWs x).length := by
    intro suf hsuf x hx
    obtain ⟨hxp, hxe⟩ := List.mem_filter.mp hx
    obtain ⟨hxl, hxc⟩ := List.mem_filter.mp hxp
    obtain ⟨hs, hc⟩ := Bool.and_eq_true _ _ |>.mp hxc
    refine h x hxl hs (Bool.not_eq_true' _ ▸ hc) ?_
    cases hsuf with
    | inl e => exact Or.inl (e ▸ hxe)
    | inr e => exact Or.inr (e ▸ hxe)
  obtain ⟨es, hes⟩ := mapSecondTokens_some _ (hsplit "error" (Or.inl rfl))
  obtain ⟨ds, hds⟩ := mapSecondTokens_some _ (hsplit "done" (Or.inr rfl))
  exact ⟨_, service_state_allign_eq lines pre es ds hes hds⟩

/-- The classifier returns a value for every action whenever the stderr lines
satisfy the well-formedness condition for both prefixes. -/
lemma eval_change_total (action : String) (se so : List String)
    (hp : splitOk se "Pausing") (hu : splitOk se "Unpausing") :
    (eval_change action se so).isSome = true := by
  obtain ⟨mp, hmp⟩ := service_state_allign_some se "Pausing" hp
  obtain ⟨mu, hmu⟩ := service_state_allign_some se "Unpausing" hu
  by_cases h1 : action = "pause"
  · subst h1; simp [eval_change, hmp]
  · by_cases h2 : action = "unpause"
    · subst h2; simp [eval_change, hmu]
    · simp [eval_change, h1, h2]

/-- On empty output the classifier returns `(false, false)` for every
action. -/
lemma eval_change_nil (action : String) :
    eval_change action [] [] = some (false, false) := by
  have hs : ∀ pre, service_state_allign ([] : List String) pre = some [] :=
    fun pre => rfl
  simp [eval_change, hs]

end Helpers


section Resolver

/-- One expansion pass decomposes as the initial accumulator unioned with the
pass started from the empty set. -/
lemma expansion_pass_eq_union (m : List (String × List String))
    (requested : List String) (acc : Finset String) :
    expansion_pass m requested acc = acc ∪ expansion_pass m requested ∅ := by
  induction requested generalizing acc with
  | nil => simp [expansion_pass]
  | cons s t ih =>
    rw [show expansion_pass m (s :: t) acc =
          expansion_pass m t (acc ∪ (depends_on_of m s).toFinset) from rfl,
        show expansion_pass m (s :: t) ∅ =
          expansion_pass m t (∅ ∪ (depends_on_of m s).toFinset) from rfl,
        ih (acc ∪ (depends_on_of m s).toFinset),
        ih (∅ ∪ (depends_on_of m s).toFinset),
        Finset.empty_union, Finset.union_assoc]

end Resolver

/-- C1: for action `up`, the classifier returns changed=true if and only if
some stderr line starts with `Starting` or `Creating` and does not end with
`up-to-date`, and on this path it never returns failed=true, for every list of
stderr and stdout lines. -/
theorem up_changed_iff_starting_or_creating (stderr_lines stdout_lines : List String) :
    ∃ c, eval_change "up" stderr_lines stdout_lines = some (c, false) ∧
      (c = true ↔ ∃ ln ∈ stderr_lines,
        (pyStartswith ln "Starting" = true ∨ pyStartswith ln "Creating" = true) ∧
          pyEndswith ln "up-to-date" = false) := by
  refine ⟨_, eval_change_up_eq stderr_lines stdout_lines, ?_⟩
  simp [List.any_eq_true, Bool.not_eq_true']

/-- C2 counterexample: on stderr `["Starting web ... done"]` the classifier
for `up` does not return changed=false, failed=false — the line starts with
`Starting` and does not end with `up-to-date`, so changed is true. -/
theorem up_starting_done_counterexample :
    eval_change "up" ["Starting web ... done"] [] ≠ some (false, false) := by decide

/-- C2 amended: the classifier for `up` applied to stderr lines
`["Starting web ... done"]` returns changed=true and failed=false, and applied
to stderr lines `["Creating db ... done", "Starting web"]` returns
changed=true and failed=false. -/
theorem up_concrete_examples :
    eval_change "up" ["Starting web ... done"] [] = some (true, false) ∧
      eval_change "up" ["Creating db ... done", "Starting web"] [] =
        some (true, false) :=
  ⟨by decide, by decide⟩

/-- C3: the dependency expansion is idempotent — for every compose document
and requested service list, applying the expansion pass (union of each
requested service's `depends_on` list into the set) to an already-expanded set
yields that same set. -/
theorem expansion_pass_idempotent (m : List (String × List String))
    (requested : List String) (acc : Finset String) :
    expansion_pass m requested (expansion_pass m requested acc) =
      expansion_pass m requested acc := by
  rw [expansion_pass_eq_union m requested (expansion_pass m requested acc),
      expansion_pass_eq_union m requested acc, Finset.union_assoc,
      Finset.union_self]

/-- C4: for every compose document and requested service list, with the
ignore-dependencies flag set no dependencies are added, and the effective
service set passed to the command equals exactly the deduplicated requested
set. -/
theorem ignoredependencys_effective_exact (sv : ServicesValue)
    (services : List String) :
    depedency_services true sv services = some ∅ ∧
      effective_service_set ∅ services = services.toFinset := by
  exact ⟨rfl, by simp [effective_service_set]⟩

/-- C5: whenever the command is `down` and the requested service list is
non-empty, `main` aborts during its pre-execution checks — before any external
process is invoked — regardless of the environment and of all other flags. -/
theorem down_with_services_fails_preflight (env : PreflightEnv) (p : ModuleParams)
    (hc : p.command = "down") (hs : p.services ≠ []) :
    (main_preflight env p).isSome = true := by
  have hlen : 1 ≤ p.services.length := List.length_pos.mpr hs
  cases hcf : env.compose_cmd_found <;> cases hlo : env.location_ok <;>
    simp [main_preflight, hcf, hlo, hc, hlen]

/-- Witness for C5 at a concrete input. -/
theorem down_with_services_fails_preflight_witness :
    (main_preflight ⟨true, true, true, ServicesValue.dict []⟩
      { location := "docker-compose.yml", services := ["web"], command := "down",
        ignoredependencys := false, removevolumes := true }).isSome = true :=
  down_with_services_fails_preflight _ _ rfl (by decide)

/-- C6 counterexample: the classifier is not total — for action `pause` and
the stderr line `Pausingerror` (which starts with `Pausing`, is completed and
ends with `error` but has a single whitespace-delimited token) the
`split()[1]` inside `service_state_allign` raises `IndexError`. -/
theorem eval_change_pause_raises :
    eval_change "pause" ["Pausingerror"] [] = none := by decide

/-- C6 amended: the classifier returns a (changed, failed) pair for every
action and output whenever every stderr line that starts with `Pausing` or
`Unpausing`, is completed, and ends with `error` or `done` has at least two
whitespace-delimited tokens; and with no output lines both flags default to
false. -/
theorem eval_change_total_amended (action : String)
    (stderr_lines stdout_lines : List String)
    (hp : splitOk stderr_lines "Pausing") (hu : splitOk stderr_lines "Unpausing") :
    (∃ r, eval_change action stderr_lines stdout_lines = some r) ∧
      eval_change action [] [] = some (false, false) := by
  refine ⟨?_, eval_change_nil action⟩
  exact Option.isSome_iff_exists.mp
    (eval_change_total action stderr_lines stdout_lines hp hu)

/-- Witness for C6 at a concrete input. -/
theorem eval_change_total_amended_witness :
    (∃ r, eval_change "pause" ["Pausing web ... done"] [] = some r) ∧
      eval_change "pause" [] [] = some (false, false) :=
  eval_change_total_amended "pause" ["Pausing web ... done"] [] (by decide) (by decide)

/-- C7: the classifier returns failed=true exactly when the action is `build`
and some stderr line contains `failed to build`; in particular the stderr line
`failed to build: no such file` under action `build` yields failed=true and
changed=false. -/
theorem failed_only_for_build :
    (∀ (action : String) (stderr_lines stdout_lines : List String) (r : Bool × Bool),
        eval_change action stderr_lines stdout_lines = some r →
        (r.2 = true ↔ action = "build" ∧
          ∃ ln ∈ stderr_lines, pyIn "failed to build" ln = true)) ∧
      eval_change "build" ["failed to build: no such file"] [] = some (false, true) := by
  constructor
  · intro action se so r h
    rw [eval_change_snd action se so r h]
    by_cases hb : action = "build"
    · simp [hb, List.any_eq_true]
    · simp [hb]
  · decide

/-- Witness for C7 at a concrete input. -/
theorem failed_only_for_build_witness :
    ((false, true) : Bool × Bool).2 = true ↔ ("build" : String) = "build" ∧
      ∃ ln ∈ ["failed to build: no such file"], pyIn "failed to build" ln = true :=
  failed_only_for_build.1 "build" ["failed to build: no such file"] [] (false, true)
    (by decide)

/-- C8: for action `pause`, whenever the state alignment succeeds the
classifier returns changed=true if and only if some service in the aligned
mapping has a state value that does not end with `is already paused`; in
particular, with one service aligned to an ERROR line ending in
`is already paused` and one aligned to `done`, changed=true. -/
theorem pause_changed_iff_not_already_paused :
    (∀ (stderr_lines stdout_lines : List String) (m : List (String × String)),
        service_state_allign stderr_lines "Pausing" = some m →
        ∃ c, eval_change "pause" stderr_lines stdout_lines = some (c, false) ∧
          (c = true ↔ ∃ p ∈ m, pyEndswith p.2 "is already paused" = false)) ∧
      eval_change "pause"
        ["Pausing db ... error", "ERROR: db is already paused", "Pausing web ... done"]
        [] = some (true, false) := by
  constructor
  · intro se so m hm
    refine ⟨_, eval_change_pause_eq se so m hm, ?_⟩
    simp [List.any_eq_true, Bool.not_eq_true']
  · decide

/-- Witness for C8 at a concrete input. -/
theorem pause_changed_iff_not_already_paused_witness :
    ∃ c, eval_change "pause" ["Pausing web ... done"] [] = some (c, false) ∧
      (c = true ↔ ∃ p ∈ [("web", "done")], pyEndswith p.2 "is already paused" = false) :=
  pause_changed_iff_not_already_paused.1 ["Pausing web ... done"] [] [("web", "done")]
    (by decide)

/-- C9: when the compose document has no `services` key (so the lookup falls
back to the `[]` list), the requested service list is non-empty, and
dependencies are not suppressed, the dependency-resolution step raises
(`.get` on a list) instead of treating the services as having no
dependencies. -/
theorem services_fallback_raises (services : List String) (h : services ≠ []) :
    depedency_services false ServicesValue.emptyListFallback services = none := by
  cases services with
  | nil => exact absurd rfl h
  | cons a t => rfl

/-- Witness for C9 at a concrete input. -/
theorem services_fallback_raises_witness :
    depedency_services false ServicesValue.emptyListFallback ["web"] = none :=
  services_fallback_raises ["web"] (by decide)

/-- C10 counterexample: the completed line `Pausing web ... error` has service
name `web` appearing in no `ERROR` line, yet the returned mapping does contain
an entry for `web` (the later `done` line inserts it), so the service is not
silently absent. -/
theorem error_line_done_entry_counterexample :
    service_state_allign ["Pausing web ... error", "Pausing web ... done"] "Pausing" =
      some [("web", "done")] := by decide

/-- C10 amended: for a service named by a completed error line that is not
also named by a completed done line, the mapping keeps exactly the last
`ERROR` line containing the name; in particular, when no `ERROR` line contains
the name the service has no entry in the returned mapping at all. -/
theorem error_service_alignment_amended (lines : List String) (pre s : String)
    (es ds : List String) (m : List (String × String))
    (hes : error_services_of lines pre = some es)
    (hds : done_services_of lines pre = some ds)
    (hm : service_state_allign lines pre = some m)
    (hse : s ∈ es) (hsd : s ∉ ds) :
    dictLookup m s = ((error_lines_of lines).filter (fun el => pyIn s el)).getLast? ∧
      ((∀ el ∈ error_lines_of lines, pyIn s el = false) → ∀ p ∈ m, p.1 ≠ s) := by
  have hm2 : m = ds.foldl (fun st d => dictInsert st d "done")
      (es.foldl (error_align_one (error_lines_of lines)) []) :=
    Option.some.inj (hm.symm.trans (service_state_allign_eq lines pre es ds hes hds))
  have hlook : dictLookup m s = lastContaining s (error_lines_of lines) := by
    rw [hm2, dictLookup_done_loop_ne _ _ _ hsd, dictLookup_error_align]
    simp [hse, dictLookup, Option.or_none]
  constructor
  · rw [hlook, lastContaining_eq_getLast?]
  · intro hall
    have hfil : (error_lines_of lines).filter (fun el => pyIn s el) = [] :=
      List.filter_eq_nil_iff.mpr (fun a ha => by simp [hall a ha])
    have h0 : dictLookup m s = none := by
      rw [hlook, lastContaining_eq_getLast?, hfil]
      rfl
    exact (dictLookup_eq_none_iff m s).mp h0

/-- Witness for C10 at a concrete input. -/
theorem error_service_alignment_amended_witness :
    dictLookup [("db", "ERROR: db two")] "db" =
      ((error_lines_of ["Pausing db ... error", "ERROR: db one", "ERROR: db two"]).filter
        (fun el => pyIn "db" el)).getLast? ∧
      ((∀ el ∈ error_lines_of ["Pausing db ... error", "ERROR: db one", "ERROR: db two"],
          pyIn "db" el = false) →
        ∀ p ∈ [("db", "ERROR: db two")], p.1 ≠ "db") :=
  error_service_alignment_amended
    ["Pausing db ... error", "ERROR: db one", "ERROR: db two"] "Pausing" "db"
    ["db"] [] [("db", "ERROR: db two")]
    (by decide) (by decide) (by decide) (by decide) (by decide)
